import Mathlib

/-!
Verification development for the Confluence cloud-to-cloud space migration
script (`spaceMigration.py`). The script's pure decision logic is embedded
shallowly: HTTP traffic is represented by oracles giving the response each
request would receive, and each Python function that builds a request body or
picks a branch becomes a Lean function on those representations.
-/

namespace SpaceMigration

/-! ## Data model -/

/-- Opaque Confluence content identifier (a string in the JSON payloads). -/
abbrev Id := String

/-- One entry of an `ancestors` array; only its `id` field is ever read. -/
structure AncestorRef where
  id : Id
deriving Repr, DecidableEq

/-- A source page as consumed by `run_copy`: `p["id"]`, `p["title"]`,
`p.get("body", {}).get("storage", {}).get("value", "") or ""` and
`p.get("ancestors", []) or []` (the `or`-defaults collapse missing/None/empty
to `""` resp. `[]`, so plain fields model them exactly). -/
structure SrcPage where
  id : Id
  title : String
  storage : String
  ancestors : List AncestorRef
deriving Repr, DecidableEq

/-- Model of `depth` inside `sort_pages_parent_first`: `len(p.get("ancestors", []) or [])`. -/
def depth (p : SrcPage) : Nat := p.ancestors.length

/-- Model of `sort_pages_parent_first`: Python's `sorted(pages, key=depth)` is a stable
sort by the key under `≤`; `List.mergeSort` is the stable sort, so it is the
exact model. -/
def sort_pages_parent_first (pages : List SrcPage) : List SrcPage :=
  pages.mergeSort (fun a b => depth a ≤ depth b)

/-- The comparison used by the sorter, as a Boolean relation. -/
def depthLE (a b : SrcPage) : Bool := depth a ≤ depth b

/-! ## Identity Resolver and the two terminal write operations -/

/-- A destination page as returned by the lookup endpoint or handed to
`update_page`: `p["id"]`, `p["title"]`, `p.get("ancestors", []) or []` and
`p.get("version", {}).get("number", 1)` — `version = none` models a payload
in which the nested `version.number` is absent (the lookup query expands only
`ancestors`, so its results carry no version). -/
structure DstPage where
  id : Id
  title : String
  ancestors : List AncestorRef
  version : Option Nat
deriving Repr, DecidableEq

/-- The HTTP response the title lookup receives: status code plus the parsed
`results` array. -/
structure LookupResponse where
  status : Nat
  results : List DstPage
deriving Repr, DecidableEq

/-- Python `x or None` on an optional string: `None` and the falsy `""` both
become `None`. -/
def orNone : Option Id → Option Id
  | none => none
  | some s => if s = "" then none else some s

/-- Model of `ancs[-1]["id"] if ancs else None` inside `find_dest_page_by_title`. -/
def directParent (p : DstPage) : Option Id :=
  (p.ancestors.getLast?).map (fun a => a.id)

/-- Model of `find_dest_page_by_title`, with the destination's reply to the
title-filtered query supplied as `resp`: a non-200 status yields `None`,
otherwise the first result whose own direct parent equals the caller's
`parent_id` (both sides normalised by `or None`) is returned. -/
def find_dest_page_by_title (resp : LookupResponse) (parent_id : Option Id) :
    Option DstPage :=
  if resp.status ≠ 200 then none
  else resp.results.find? (fun p => orNone parent_id == orNone (directParent p))

/-- Python truthiness of `parent_id` (`if parent_id:`): `None` and `""` are
falsy. -/
def pyTruthy : Option Id → Bool
  | none => false
  | some s => s ≠ ""

/-- The JSON body assembled by `create_page`; `ancestors = none` models the
`"ancestors"` key being absent from the dict. -/
structure CreateBody where
  title : String
  spaceKey : String
  storageValue : String
  representation : String
  ancestors : Option Id
deriving Repr, DecidableEq

/-- Model of `create_page`: builds the POST body; the `ancestors` key is set to the
single entry `[{"id": parent_id}]` only when `parent_id` is truthy. -/
def create_page (dstSpaceKey : String) (title : String) (storage_value : String)
    (parent_id : Option Id) : CreateBody :=
  { title := title
    spaceKey := dstSpaceKey
    storageValue := storage_value
    representation := "storage"
    ancestors := if pyTruthy parent_id then parent_id else none }

/-- The JSON body assembled by `update_page`; the source dict has keys `id`,
`type`, `title`, `space`, `body`, `version` and no `"ancestors"` key, which
`ancestors = none` models. -/
structure UpdateBody where
  id : Id
  title : String
  spaceKey : String
  storageValue : String
  representation : String
  versionNumber : Nat
  ancestors : Option Id
deriving Repr, DecidableEq

/-- Model of `update_page`: builds the PUT body from the matched destination page;
`version_num = page.get("version", {}).get("number", 1)` and the sent version
is `version_num + 1`. -/
def update_page (dstSpaceKey : String) (page : DstPage) (new_storage_value : String) :
    UpdateBody :=
  { id := page.id
    title := page.title
    spaceKey := dstSpaceKey
    storageValue := new_storage_value
    representation := "storage"
    versionNumber := page.version.getD 1 + 1
    ancestors := none }

/-! ## Migration Orchestrator (`run_copy`) -/

/-- The three `ON_TITLE_CONFLICT` modes. -/
inductive ConflictPolicy
  | skip
  | update
  | appendSuffix
deriving Repr, DecidableEq

/-- The behavioural configuration constants of the script. -/
structure Config where
  dstSpaceKey : String
  onTitleConflict : ConflictPolicy
  copyLabels : Bool
  copyAttachments : Bool
deriving Repr, DecidableEq

/-- The dictionary `id_map`, the source-id → destination-id dictionary, as an association
list in which the most recent insert shadows older entries. -/
abbrev IdMap := List (Id × Id)

/-- Dictionary lookup `id_map.get(k)`, `none` when the key is absent. -/
def idMapGet (m : IdMap) (k : Id) : Option Id :=
  (m.find? (fun e => e.1 == k)).map (fun e => e.2)

/-- Dictionary assignment `id_map[k] = v`. -/
def idMapPut (m : IdMap) (k : Id) (v : Id) : IdMap := (k, v) :: m

/-- Observable actions of the `run_copy` loop, recorded in program order. -/
inductive Event
  | createReq (body : CreateBody)
  | updateReq (body : UpdateBody)
  | skipped (title : String)
  | labelsCopy (srcId : Id) (dstId : Id)
  | attachmentsCopy (srcId : Id) (dstId : Id)
deriving Repr, DecidableEq

/-- Environment oracles for one run: the destination's reply to the title
lookup (the query depends only on the title), and the `id` field of the JSON
the destination returns for a create resp. update request. -/
structure Env where
  lookup : String → LookupResponse
  createdId : CreateBody → Id
  updatedId : UpdateBody → Id

/-- Lines 258-260 of `run_copy`: `parent_src_id = ancestors[-1]["id"] if
ancestors else None`, then `parent_dst_id = id_map.get(parent_src_id) if
parent_src_id else None`. -/
def resolve_parent (id_map : IdMap) (p : SrcPage) : Option Id :=
  match (p.ancestors.getLast?).map (fun a => a.id) with
  | some pid => idMapGet id_map pid
  | none => none

/-- Lines 282-287 of the loop body: `dst_id = id_map[src_id]` followed by the
guarded `copy_labels` / `copy_attachments` calls. -/
def propagateAssets (cfg : Config) (src_id : Id) (dst_id : Id) : List Event :=
  (if cfg.copyLabels then [Event.labelsCopy src_id dst_id] else [])
    ++ (if cfg.copyAttachments then [Event.attachmentsCopy src_id dst_id] else [])

/-- One iteration of the `for p in pages` loop of `run_copy`: resolve the
destination parent, look for an existing destination page, branch on the
conflict policy (the skip branch registers the existing id and `continue`s),
register the written page's id, and append the propagation calls. -/
def processPage (cfg : Config) (env : Env) (acc : IdMap × List Event) (p : SrcPage) :
    IdMap × List Event :=
  let id_map := acc.1
  let parent_dst_id := resolve_parent id_map p
  match find_dest_page_by_title (env.lookup p.title) parent_dst_id with
  | some existing =>
    match cfg.onTitleConflict with
    | ConflictPolicy.skip =>
      (idMapPut id_map p.id existing.id, acc.2 ++ [Event.skipped p.title])
    | ConflictPolicy.update =>
      let body := update_page cfg.dstSpaceKey existing p.storage
      let dst_id := env.updatedId body
      (idMapPut id_map p.id dst_id,
        acc.2 ++ [Event.updateReq body] ++ propagateAssets cfg p.id dst_id)
    | ConflictPolicy.appendSuffix =>
      let body := create_page cfg.dstSpaceKey (p.title ++ " (copy)") p.storage parent_dst_id
      let dst_id := env.createdId body
      (idMapPut id_map p.id dst_id,
        acc.2 ++ [Event.createReq body] ++ propagateAssets cfg p.id dst_id)
  | none =>
    let body := create_page cfg.dstSpaceKey p.title p.storage parent_dst_id
    let dst_id := env.createdId body
    (idMapPut id_map p.id dst_id,
      acc.2 ++ [Event.createReq body] ++ propagateAssets cfg p.id dst_id)

/-- Model of `run_copy` after the fetch: sort parents first, then fold the per-item
step starting from an empty identity map and an empty event log. -/
def run_copy (cfg : Config) (env : Env) (pages : List SrcPage) : IdMap × List Event :=
  (sort_pages_parent_first pages).foldl (processPage cfg env) ([], [])

/-! ## Resilient Transport (`_req_with_retry`) -/

/-- An HTTP response as the retry loop sees it: status code and the parsed
`Retry-After` header (`none` models an absent or falsy header). Wait times
are rationals measured in seconds. -/
structure Response where
  status : Nat
  retryAfter : Option ℚ
deriving Repr, DecidableEq

/-- What one `sess.request` call does: raise a `requests.RequestException` or
deliver a response. -/
inductive Outcome
  | exn
  | resp (r : Response)
deriving Repr, DecidableEq

/-- How `_req_with_retry` finishes: re-raising the caught exception, or
returning a response. `crashed` is the final `return r` with `r` never
bound, reachable only when the loop body never ran (`RETRY_MAX = 0`). -/
inductive ReqResult
  | raised
  | returned (r : Response)
  | crashed
deriving Repr, DecidableEq

/-- Backoff duration `RETRY_BASE_WAIT * (2 ** (attempt - 1))`. -/
def backoff (base : ℚ) (attempt : Nat) : ℚ := base * 2 ^ (attempt - 1)

/-- The `for attempt in range(1, RETRY_MAX + 1)` loop of `_req_with_retry`.
`fuel` counts the remaining iterations, `last` is the binding of `r` from the
previous iteration, and `sleeps` accumulates every `time.sleep` duration. On
an exception: re-raise at the final attempt, else back off. On 429: sleep the
`Retry-After` hint (else the backoff) and continue — even at the final
attempt. On 5xx: return the response at the final attempt, else back off. Any
other status returns at once. Falling out of the loop returns the last bound
`r`. -/
def retryLoop (oracle : Nat → Outcome) (retryMax : Nat) (base : ℚ) :
    Nat → Nat → Option Response → List ℚ → ReqResult × List ℚ
  | 0, _, last, sleeps =>
    match last with
    | some r => (ReqResult.returned r, sleeps)
    | none => (ReqResult.crashed, sleeps)
  | fuel + 1, attempt, last, sleeps =>
    match oracle attempt with
    | Outcome.exn =>
      if retryMax ≤ attempt then (ReqResult.raised, sleeps)
      else retryLoop oracle retryMax base fuel (attempt + 1) last
        (sleeps ++ [backoff base attempt])
    | Outcome.resp r =>
      if r.status = 429 then
        retryLoop oracle retryMax base fuel (attempt + 1) (some r)
          (sleeps ++ [r.retryAfter.getD (backoff base attempt)])
      else if 500 ≤ r.status ∧ r.status < 600 then
        if retryMax ≤ attempt then (ReqResult.returned r, sleeps)
        else retryLoop oracle retryMax base fuel (attempt + 1) (some r)
          (sleeps ++ [backoff base attempt])
      else (ReqResult.returned r, sleeps)

/-- Model of `_req_with_retry`, with the transport behaviour of attempt `k` supplied
by `oracle k`: run the loop over attempts `1 .. retryMax`. -/
def req_with_retry (oracle : Nat → Outcome) (retryMax : Nat) (base : ℚ) :
    ReqResult × List ℚ :=
  retryLoop oracle retryMax base retryMax 1 none []

/-- Constant `RETRY_MAX`. -/
def RETRY_MAX : Nat := 6

/-- Constant `RETRY_BASE_WAIT` (2.0 seconds). -/
def RETRY_BASE_WAIT : ℚ := 2

/-- The attempt outcome is a server-fault (5xx) response. -/
def isServerFault (o : Outcome) : Prop :=
  match o with
  | Outcome.exn => False
  | Outcome.resp r => 500 ≤ r.status ∧ r.status < 600

/-- The attempt outcome is a rate-limit (429) response. -/
def isRateLimited (o : Outcome) : Prop :=
  match o with
  | Outcome.exn => False
  | Outcome.resp r => r.status = 429

/-- The sleep the 429 branch performs for the outcome of attempt `k`. -/
def rateWait (base : ℚ) (k : Nat) (o : Outcome) : ℚ :=
  match o with
  | Outcome.exn => backoff base k
  | Outcome.resp r => r.retryAfter.getD (backoff base k)

/-! ## Theorems -/

theorem depthLE_trans (a b c : SrcPage) (hab : depthLE a b) (hbc : depthLE b c) :
    depthLE a c := by
  simp only [depthLE, decide_eq_true_eq] at *
  omega

theorem depthLE_total (a b : SrcPage) : depthLE a b || depthLE b a := by
  simp only [depthLE, Bool.or_eq_true, decide_eq_true_eq]
  omega

theorem sort_pages_parent_first_perm (pages : List SrcPage) :
    List.Perm (sort_pages_parent_first pages) pages :=
  List.mergeSort_perm pages _

theorem sort_pages_parent_first_sorted (pages : List SrcPage) :
    (sort_pages_parent_first pages).Pairwise (fun a b => depth a ≤ depth b) := by
  have h : (sort_pages_parent_first pages).Pairwise
      (fun a b => decide (depth a ≤ depth b) = true) := by
    unfold sort_pages_parent_first
    apply List.sorted_mergeSort
    · exact fun a b c hab hbc => depthLE_trans a b c hab hbc
    · exact fun a b => depthLE_total a b
  exact h.imp (fun {a b} hab => by simpa using hab)

theorem sort_pages_parent_first_stable (pages : List SrcPage) (d : Nat) :
    (sort_pages_parent_first pages).filter (fun p => depth p == d)
      = pages.filter (fun p => depth p == d) := by
  have hsub : List.Sublist (pages.filter (fun p => depth p == d))
      (sort_pages_parent_first pages) := by
    apply List.sublist_mergeSort
      (fun a b c hab hbc => depthLE_trans a b c hab hbc)
      (fun a b => depthLE_total a b)
    · refine List.pairwise_of_forall_mem_list ?_
      intro a ha b hb
      have ha' := (List.mem_filter.1 ha).2
      have hb' := (List.mem_filter.1 hb).2
      simp only [beq_iff_eq] at ha' hb'
      show depthLE a b = true
      simp [depthLE, ha', hb']
    · exact List.filter_sublist pages
  have hsub2 : List.Sublist (pages.filter (fun p => depth p == d))
      ((sort_pages_parent_first pages).filter (fun p => depth p == d)) := by
    have h := hsub.filter (fun p => depth p == d)
    have hid : (pages.filter (fun p => depth p == d)).filter (fun p => depth p == d)
        = pages.filter (fun p => depth p == d) := by
      apply List.filter_eq_self.2
      intro a ha
      exact (List.mem_filter.1 ha).2
    rwa [hid] at h
  have hperm : List.Perm
      ((sort_pages_parent_first pages).filter (fun p => depth p == d))
      (pages.filter (fun p => depth p == d)) :=
    (sort_pages_parent_first_perm pages).filter _
  exact (hsub2.eq_of_length hperm.length_eq.symm).symm

/-- C4: for every input list, the Hierarchy Sorter's output is a permutation
of the input with non-decreasing depth, and the items of each fixed depth
appear in their original input order (stable sort on depth only). -/
theorem sorter_spec (pages : List SrcPage) :
    List.Perm (sort_pages_parent_first pages) pages
      ∧ (sort_pages_parent_first pages).Pairwise (fun a b => depth a ≤ depth b)
      ∧ ∀ d, (sort_pages_parent_first pages).filter (fun p => depth p == d)
          = pages.filter (fun p => depth p == d) :=
  ⟨sort_pages_parent_first_perm pages, sort_pages_parent_first_sorted pages,
    sort_pages_parent_first_stable pages⟩

/-- C6: a match returned by the Identity Resolver has its own resolved direct
parent equal (after `or None` normalisation) to the caller's `parent_id`;
hence the same page can never be returned for two parent ids with different
normalisations. -/
theorem find_dest_match_parent (resp : LookupResponse) (parent_id : Option Id)
    (p : DstPage) (h : find_dest_page_by_title resp parent_id = some p) :
    orNone parent_id = orNone (directParent p)
      ∧ ∀ parent_id2, find_dest_page_by_title resp parent_id2 = some p →
          orNone parent_id = orNone parent_id2 := by
  have key : ∀ pid : Option Id, find_dest_page_by_title resp pid = some p →
      orNone pid = orNone (directParent p) := by
    intro pid hp
    unfold find_dest_page_by_title at hp
    by_cases hs : resp.status ≠ 200
    · simp [hs] at hp
    · simp only [hs, if_false] at hp
      have := List.find?_some hp
      simpa using this
  refine ⟨key parent_id h, ?_⟩
  intro pid2 h2
  rw [key parent_id h, key pid2 h2]

/-- Witness for `find_dest_match_parent` at a concrete lookup. -/
theorem find_dest_match_parent_witness :
    orNone (some "P") = orNone (directParent ⟨"d1", "T", [⟨"P"⟩], none⟩) :=
  (find_dest_match_parent ⟨200, [⟨"d1", "T", [⟨"P"⟩], none⟩]⟩ (some "P")
    ⟨"d1", "T", [⟨"P"⟩], none⟩ (by decide)).1

/-- C7: when the lookup request completes with a non-2xx status, the Identity
Resolver reports "no match" instead of propagating the failure. -/
theorem find_dest_non2xx_none (resp : LookupResponse) (parent_id : Option Id)
    (h : resp.status < 200 ∨ 300 ≤ resp.status) :
    find_dest_page_by_title resp parent_id = none := by
  have hne : resp.status ≠ 200 := by omega
  simp [find_dest_page_by_title, hne]

/-- Witness for `find_dest_non2xx_none` at a concrete 500 response. -/
theorem find_dest_non2xx_none_witness :
    find_dest_page_by_title ⟨500, [⟨"d1", "T", [], none⟩]⟩ none = none :=
  find_dest_non2xx_none ⟨500, [⟨"d1", "T", [], none⟩]⟩ none (Or.inr (by norm_num))

/-- C2 counterexample: a matched page whose payload carries no
`version.number` is still overwritten — `update_page` silently defaults the
current version to 1 and sends 2, so the version is not "read fresh from the
match, never assumed or defaulted". -/
theorem update_version_defaulted :
    (⟨"d1", "T", [], none⟩ : DstPage).version = none
      ∧ (update_page "DST" ⟨"d1", "T", [], none⟩ "x").versionNumber = 2
      ∧ ¬ ∃ v, (⟨"d1", "T", [], none⟩ : DstPage).version = some v
          ∧ (update_page "DST" ⟨"d1", "T", [], none⟩ "x").versionNumber = v + 1 := by
  refine ⟨rfl, rfl, ?_⟩
  rintro ⟨v, hv, -⟩
  exact Option.noConfusion hv

/-- C2 amended: in update mode, when the match carries a version number `v`,
the PUT body uses the existing destination id and version `v + 1`; when the
match carries none, the version is defaulted to 1 and `2` is sent. -/
theorem update_uses_fresh_version (cfg : Config) (env : Env)
    (acc : IdMap × List Event) (p : SrcPage) (ex : DstPage)
    (hpol : cfg.onTitleConflict = ConflictPolicy.update)
    (hfind : find_dest_page_by_title (env.lookup p.title) (resolve_parent acc.1 p)
        = some ex) :
    ∃ body : UpdateBody,
      Event.updateReq body ∈ (processPage cfg env acc p).2
        ∧ body.id = ex.id
        ∧ body.versionNumber = (match ex.version with
            | some v => v + 1
            | none => 2) := by
  refine ⟨update_page cfg.dstSpaceKey ex p.storage, ?_, rfl, ?_⟩
  · unfold processPage
    simp only [hfind, hpol]
    simp
  · cases hv : ex.version with
    | some v => simp [update_page, hv]
    | none => simp [update_page, hv]

/-- Witness for `update_uses_fresh_version`: a concrete destination match at
version 3 is overwritten with version 4 under its own id. -/
theorem update_uses_fresh_version_witness :
    ∃ body : UpdateBody,
      Event.updateReq body ∈ (processPage ⟨"DST", ConflictPolicy.update, true, true⟩
          ⟨fun _ => ⟨200, [⟨"d2", "B", [], some 3⟩]⟩, fun b => b.title, fun b => b.id⟩
          ([], []) ⟨"s2", "B", "xml", []⟩).2
        ∧ body.id = (⟨"d2", "B", [], some 3⟩ : DstPage).id
        ∧ body.versionNumber = (match (⟨"d2", "B", [], some 3⟩ : DstPage).version with
            | some v => v + 1
            | none => 2) :=
  update_uses_fresh_version ⟨"DST", ConflictPolicy.update, true, true⟩
    ⟨fun _ => ⟨200, [⟨"d2", "B", [], some 3⟩]⟩, fun b => b.title, fun b => b.id⟩
    ([], []) ⟨"s2", "B", "xml", []⟩ ⟨"d2", "B", [], some 3⟩ rfl (by decide)

theorem mem_propagateAssets {cfg : Config} {s d : Id} {e : Event}
    (h : e ∈ propagateAssets cfg s d) :
    e = Event.labelsCopy s d ∨ e = Event.attachmentsCopy s d := by
  unfold propagateAssets at h
  cases hl : cfg.copyLabels <;> cases ha : cfg.copyAttachments <;>
    rw [hl, ha] at h <;> simp at h <;> tauto

theorem processPage_create (cfg : Config) (env : Env) (m : IdMap) (evs : List Event)
    (p : SrcPage)
    (hfind : find_dest_page_by_title (env.lookup p.title) (resolve_parent m p) = none) :
    processPage cfg env (m, evs) p =
      (idMapPut m p.id (env.createdId
          (create_page cfg.dstSpaceKey p.title p.storage (resolve_parent m p))),
        evs ++ [Event.createReq
            (create_page cfg.dstSpaceKey p.title p.storage (resolve_parent m p))]
          ++ propagateAssets cfg p.id (env.createdId
            (create_page cfg.dstSpaceKey p.title p.storage (resolve_parent m p)))) := by
  unfold processPage
  simp only [hfind]

theorem processPage_skip (cfg : Config) (env : Env) (m : IdMap) (evs : List Event)
    (p : SrcPage) (ex : DstPage)
    (hfind : find_dest_page_by_title (env.lookup p.title) (resolve_parent m p) = some ex)
    (hpol : cfg.onTitleConflict = ConflictPolicy.skip) :
    processPage cfg env (m, evs) p =
      (idMapPut m p.id ex.id, evs ++ [Event.skipped p.title]) := by
  unfold processPage
  simp only [hfind, hpol]

theorem processPage_update (cfg : Config) (env : Env) (m : IdMap) (evs : List Event)
    (p : SrcPage) (ex : DstPage)
    (hfind : find_dest_page_by_title (env.lookup p.title) (resolve_parent m p) = some ex)
    (hpol : cfg.onTitleConflict = ConflictPolicy.update) :
    processPage cfg env (m, evs) p =
      (idMapPut m p.id (env.updatedId (update_page cfg.dstSpaceKey ex p.storage)),
        evs ++ [Event.updateReq (update_page cfg.dstSpaceKey ex p.storage)]
          ++ propagateAssets cfg p.id
            (env.updatedId (update_page cfg.dstSpaceKey ex p.storage))) := by
  unfold processPage
  simp only [hfind, hpol]

theorem processPage_appendSuffix (cfg : Config) (env : Env) (m : IdMap)
    (evs : List Event) (p : SrcPage) (ex : DstPage)
    (hfind : find_dest_page_by_title (env.lookup p.title) (resolve_parent m p) = some ex)
    (hpol : cfg.onTitleConflict = ConflictPolicy.appendSuffix) :
    processPage cfg env (m, evs) p =
      (idMapPut m p.id (env.createdId (create_page cfg.dstSpaceKey
          (p.title ++ " (copy)") p.storage (resolve_parent m p))),
        evs ++ [Event.createReq (create_page cfg.dstSpaceKey
            (p.title ++ " (copy)") p.storage (resolve_parent m p))]
          ++ propagateAssets cfg p.id (env.createdId (create_page cfg.dstSpaceKey
            (p.title ++ " (copy)") p.storage (resolve_parent m p)))) := by
  unfold processPage
  simp only [hfind, hpol]

/-- C3 counterexample: a non-root item (resolved destination parent `"PD"`)
handled by the update branch — the PUT body carries no parent linkage at all
(`ancestors = none`), not the resolved parent id. -/
theorem update_omits_parent_linkage :
    resolve_parent [("s1", "PD")] ⟨"s2", "B", "xml", [⟨"s1"⟩]⟩ = some "PD"
      ∧ (processPage ⟨"DST", ConflictPolicy.update, true, true⟩
            ⟨fun _ => ⟨200, [⟨"d2", "B", [⟨"PD"⟩], some 3⟩]⟩, fun b => b.title,
              fun b => b.id⟩
            ([("s1", "PD")], []) ⟨"s2", "B", "xml", [⟨"s1"⟩]⟩).2
          = [Event.updateReq ⟨"d2", "B", "DST", "xml", "storage", 4, none⟩,
              Event.labelsCopy "s2" "d2", Event.attachmentsCopy "s2" "d2"]
      ∧ (⟨"d2", "B", "DST", "xml", "storage", 4, none⟩ : UpdateBody).ancestors
          ≠ some "PD" := by
  refine ⟨by decide, by decide, by decide⟩

/-- C3 amended: every create request sends the source body markup unmodified
and links the already-resolved destination parent (omitted when falsy), while
every update request sends the markup unmodified but never carries parent
linkage; the skip branch issues no write at all. -/
theorem terminal_write_bodies (cfg : Config) (env : Env) (m : IdMap) (p : SrcPage) :
    (∀ b : CreateBody, Event.createReq b ∈ (processPage cfg env (m, []) p).2 →
        b.storageValue = p.storage
          ∧ b.ancestors = (if pyTruthy (resolve_parent m p) then resolve_parent m p
              else none))
      ∧ ∀ b : UpdateBody, Event.updateReq b ∈ (processPage cfg env (m, []) p).2 →
          b.storageValue = p.storage ∧ b.ancestors = none := by
  cases hfind : find_dest_page_by_title (env.lookup p.title) (resolve_parent m p) with
  | none =>
    rw [processPage_create cfg env m [] p hfind]
    constructor
    · intro b hb
      simp only [List.nil_append, List.cons_append, List.mem_cons, List.mem_append,
        List.mem_singleton] at hb
      rcases hb with hb | hb
      · cases hb
        exact ⟨rfl, rfl⟩
      · rcases mem_propagateAssets hb with h | h <;> exact Event.noConfusion h
    · intro b hb
      simp only [List.nil_append, List.cons_append, List.mem_cons, List.mem_append,
        List.mem_singleton] at hb
      rcases hb with hb | hb
      · exact Event.noConfusion hb
      · rcases mem_propagateAssets hb with h | h <;> exact Event.noConfusion h
  | some ex =>
    cases hpol : cfg.onTitleConflict with
    | skip =>
      rw [processPage_skip cfg env m [] p ex hfind hpol]
      constructor
      · intro b hb
        simp only [List.nil_append, List.mem_singleton] at hb
        exact Event.noConfusion hb
      · intro b hb
        simp only [List.nil_append, List.mem_singleton] at hb
        exact Event.noConfusion hb
    | update =>
      rw [processPage_update cfg env m [] p ex hfind hpol]
      constructor
      · intro b hb
        simp only [List.nil_append, List.cons_append, List.mem_cons, List.mem_append,
          List.mem_singleton] at hb
        rcases hb with hb | hb
        · exact Event.noConfusion hb
        · rcases mem_propagateAssets hb with h | h <;> exact Event.noConfusion h
      · intro b hb
        simp only [List.nil_append, List.cons_append, List.mem_cons, List.mem_append,
          List.mem_singleton] at hb
        rcases hb with hb | hb
        · cases hb
          exact ⟨rfl, rfl⟩
        · rcases mem_propagateAssets hb with h | h <;> exact Event.noConfusion h
    | appendSuffix =>
      rw [processPage_appendSuffix cfg env m [] p ex hfind hpol]
      constructor
      · intro b hb
        simp only [List.nil_append, List.cons_append, List.mem_cons, List.mem_append,
          List.mem_singleton] at hb
        rcases hb with hb | hb
        · cases hb
          exact ⟨rfl, rfl⟩
        · rcases mem_propagateAssets hb with h | h <;> exact Event.noConfusion h
      · intro b hb
        simp only [List.nil_append, List.cons_append, List.mem_cons, List.mem_append,
          List.mem_singleton] at hb
        rcases hb with hb | hb
        · exact Event.noConfusion hb
        · rcases mem_propagateAssets hb with h | h <;> exact Event.noConfusion h

/-- Witness for `terminal_write_bodies`: the concrete update request of the
scenario above sends the source markup and no parent linkage. -/
theorem terminal_write_bodies_witness :
    (⟨"d2", "B", "DST", "xml", "storage", 4, none⟩ : UpdateBody).storageValue
        = (⟨"s2", "B", "xml", [⟨"s1"⟩]⟩ : SrcPage).storage
      ∧ (⟨"d2", "B", "DST", "xml", "storage", 4, none⟩ : UpdateBody).ancestors = none :=
  (terminal_write_bodies ⟨"DST", ConflictPolicy.update, true, true⟩
      ⟨fun _ => ⟨200, [⟨"d2", "B", [⟨"PD"⟩], some 3⟩]⟩, fun b => b.title, fun b => b.id⟩
      [("s1", "PD")] ⟨"s2", "B", "xml", [⟨"s1"⟩]⟩).2
    ⟨"d2", "B", "DST", "xml", "storage", 4, none⟩ (by decide)

theorem idMapGet_put (m : IdMap) (k v : Id) : idMapGet (idMapPut m k v) k = some v := by
  unfold idMapGet idMapPut
  rw [List.find?_cons_of_pos]
  · rfl
  · simp

theorem propagateAssets_on (cfg : Config) (s d : Id) (hl : cfg.copyLabels = true)
    (ha : cfg.copyAttachments = true) :
    propagateAssets cfg s d = [Event.labelsCopy s d, Event.attachmentsCopy s d] := by
  simp [propagateAssets, hl, ha]

/-- C5: an orphaned ancestor reference — the item's immediate source ancestor
is not a key of the identity map when the item is processed — resolves to
"no parent"; the run continues (a destination mapping is still registered for
the item), and when no destination match exists the item is created with no
parent linkage (root-level placement). -/
theorem orphan_ancestor_falls_back_to_root (m : IdMap) (p : SrcPage) (pid : Id)
    (hanc : (p.ancestors.getLast?).map (fun a => a.id) = some pid)
    (hmiss : idMapGet m pid = none) :
    resolve_parent m p = none
      ∧ ∀ cfg env evs,
          (∃ d, idMapGet (processPage cfg env (m, evs) p).1 p.id = some d)
            ∧ (find_dest_page_by_title (env.lookup p.title) none = none →
                Event.createReq (create_page cfg.dstSpaceKey p.title p.storage none)
                  ∈ (processPage cfg env (m, evs) p).2) := by
  have hres : resolve_parent m p = none := by
    unfold resolve_parent
    rw [hanc]
    exact hmiss
  refine ⟨hres, ?_⟩
  intro cfg env evs
  constructor
  · cases hfind : find_dest_page_by_title (env.lookup p.title) (resolve_parent m p) with
    | none =>
      rw [processPage_create cfg env m evs p hfind]
      exact ⟨_, idMapGet_put m p.id _⟩
    | some ex =>
      cases hpol : cfg.onTitleConflict with
      | skip =>
        rw [processPage_skip cfg env m evs p ex hfind hpol]
        exact ⟨_, idMapGet_put m p.id _⟩
      | update =>
        rw [processPage_update cfg env m evs p ex hfind hpol]
        exact ⟨_, idMapGet_put m p.id _⟩
      | appendSuffix =>
        rw [processPage_appendSuffix cfg env m evs p ex hfind hpol]
        exact ⟨_, idMapGet_put m p.id _⟩
  · intro hnone
    have hfind : find_dest_page_by_title (env.lookup p.title) (resolve_parent m p)
        = none := by
      rw [hres]
      exact hnone
    rw [processPage_create cfg env m evs p hfind, hres]
    simp

/-- Witness for `orphan_ancestor_falls_back_to_root`: a child referencing the
unknown ancestor `"ghost"` resolves to no parent. -/
theorem orphan_ancestor_falls_back_to_root_witness :
    resolve_parent [("s1", "d1")] ⟨"s9", "C", "x", [⟨"ghost"⟩]⟩ = none :=
  (orphan_ancestor_falls_back_to_root [("s1", "d1")] ⟨"s9", "C", "x", [⟨"ghost"⟩]⟩
    "ghost" (by decide) (by decide)).1

/-- C1 counterexample: with the skip policy and both copy toggles on, an item
whose destination id is known (registered as `"d1"`) gets no
`copy_labels`/`copy_attachments` invocation — the skip branch `continue`s
before asset propagation. -/
theorem skip_branch_skips_propagation :
    (processPage ⟨"DST", ConflictPolicy.skip, true, true⟩
          ⟨fun _ => ⟨200, [⟨"d1", "A", [], some 1⟩]⟩, fun b => b.title, fun b => b.id⟩
          ([], []) ⟨"s1", "A", "x", []⟩).1 = [("s1", "d1")]
      ∧ (processPage ⟨"DST", ConflictPolicy.skip, true, true⟩
            ⟨fun _ => ⟨200, [⟨"d1", "A", [], some 1⟩]⟩, fun b => b.title, fun b => b.id⟩
            ([], []) ⟨"s1", "A", "x", []⟩).2 = [Event.skipped "A"]
      ∧ Event.labelsCopy "s1" "d1" ∉ (processPage ⟨"DST", ConflictPolicy.skip, true, true⟩
            ⟨fun _ => ⟨200, [⟨"d1", "A", [], some 1⟩]⟩, fun b => b.title, fun b => b.id⟩
            ([], []) ⟨"s1", "A", "x", []⟩).2
      ∧ Event.attachmentsCopy "s1" "d1" ∉ (processPage ⟨"DST", ConflictPolicy.skip, true, true⟩
            ⟨fun _ => ⟨200, [⟨"d1", "A", [], some 1⟩]⟩, fun b => b.title, fun b => b.id⟩
            ([], []) ⟨"s1", "A", "x", []⟩).2 := by
  refine ⟨by decide, by decide, by decide, by decide⟩

/-- C1 amended: with both copy toggles on, every item handled by the create,
update, or append-suffix branch has `copy_labels` and `copy_attachments`
invoked on its registered destination id; an item handled by the skip branch
registers the existing id but gets no propagation. -/
theorem propagation_per_branch (cfg : Config) (env : Env) (m : IdMap)
    (evs : List Event) (p : SrcPage)
    (hl : cfg.copyLabels = true) (ha : cfg.copyAttachments = true) :
    ((find_dest_page_by_title (env.lookup p.title) (resolve_parent m p) = none
        ∨ cfg.onTitleConflict ≠ ConflictPolicy.skip) →
      ∃ d, idMapGet (processPage cfg env (m, evs) p).1 p.id = some d
        ∧ Event.labelsCopy p.id d ∈ (processPage cfg env (m, evs) p).2
        ∧ Event.attachmentsCopy p.id d ∈ (processPage cfg env (m, evs) p).2)
      ∧ ∀ ex, find_dest_page_by_title (env.lookup p.title) (resolve_parent m p) = some ex →
          cfg.onTitleConflict = ConflictPolicy.skip →
          idMapGet (processPage cfg env (m, evs) p).1 p.id = some ex.id
            ∧ (processPage cfg env (m, evs) p).2 = evs ++ [Event.skipped p.title] := by
  constructor
  · intro hbranch
    cases hfind : find_dest_page_by_title (env.lookup p.title) (resolve_parent m p) with
    | none =>
      rw [processPage_create cfg env m evs p hfind, propagateAssets_on cfg p.id _ hl ha]
      exact ⟨_, idMapGet_put m p.id _, by simp, by simp⟩
    | some ex =>
      have hne : cfg.onTitleConflict ≠ ConflictPolicy.skip := by
        rcases hbranch with hcontr | hne
        · rw [hfind] at hcontr
          exact Option.noConfusion hcontr
        · exact hne
      cases hpol : cfg.onTitleConflict with
      | skip => exact absurd hpol hne
      | update =>
        rw [processPage_update cfg env m evs p ex hfind hpol,
          propagateAssets_on cfg p.id _ hl ha]
        exact ⟨_, idMapGet_put m p.id _, by simp, by simp⟩
      | appendSuffix =>
        rw [processPage_appendSuffix cfg env m evs p ex hfind hpol,
          propagateAssets_on cfg p.id _ hl ha]
        exact ⟨_, idMapGet_put m p.id _, by simp, by simp⟩
  · intro ex hfind hpol
    rw [processPage_skip cfg env m evs p ex hfind hpol]
    exact ⟨idMapGet_put m p.id _, rfl⟩

/-- Witness for `propagation_per_branch`: a freshly created item gets both
propagation calls on its new destination id. -/
theorem propagation_per_branch_witness :
    ∃ d, idMapGet (processPage ⟨"DST", ConflictPolicy.update, true, true⟩
          ⟨fun _ => ⟨200, []⟩, fun _ => "newId", fun b => b.id⟩
          ([], []) ⟨"s1", "A", "x", []⟩).1 "s1" = some d
      ∧ Event.labelsCopy "s1" d ∈ (processPage ⟨"DST", ConflictPolicy.update, true, true⟩
            ⟨fun _ => ⟨200, []⟩, fun _ => "newId", fun b => b.id⟩
            ([], []) ⟨"s1", "A", "x", []⟩).2
      ∧ Event.attachmentsCopy "s1" d ∈ (processPage ⟨"DST", ConflictPolicy.update, true, true⟩
            ⟨fun _ => ⟨200, []⟩, fun _ => "newId", fun b => b.id⟩
            ([], []) ⟨"s1", "A", "x", []⟩).2 :=
  (propagation_per_branch ⟨"DST", ConflictPolicy.update, true, true⟩
      ⟨fun _ => ⟨200, []⟩, fun _ => "newId", fun b => b.id⟩
      [] [] ⟨"s1", "A", "x", []⟩ rfl rfl).1 (Or.inl (by decide))

theorem backoff_range_shift (base : ℚ) (n a : Nat) :
    (List.range (n + 1)).map (fun i => backoff base (a + i))
      = backoff base a :: (List.range n).map (fun i => backoff base (a + 1 + i)) := by
  rw [List.range_succ_eq_map]
  simp only [List.map_cons, Nat.add_zero, List.map_map]
  congr 1
  apply List.map_congr_left
  intro i _
  simp only [Function.comp_apply]
  congr 1
  omega

theorem rateWait_range_shift (oracle : Nat → Outcome) (base : ℚ) (n a : Nat) :
    (List.range (n + 1)).map (fun i => rateWait base (a + i) (oracle (a + i)))
      = rateWait base a (oracle a)
        :: (List.range n).map (fun i => rateWait base (a + 1 + i) (oracle (a + 1 + i))) := by
  rw [List.range_succ_eq_map]
  simp only [List.map_cons, Nat.add_zero, List.map_map]
  congr 1
  apply List.map_congr_left
  intro i _
  simp only [Function.comp_apply]
  have hx : a + (i + 1) = a + 1 + i := by omega
  rw [hx]

theorem retryLoop_all_5xx (oracle : Nat → Outcome) (retryMax : Nat) (base : ℚ)
    (rN : Response) (hN : oracle retryMax = Outcome.resp rN) :
    ∀ fuel attempt last sleeps,
      attempt + fuel = retryMax + 1 → 1 ≤ attempt → attempt ≤ retryMax →
      (∀ k, attempt ≤ k → k ≤ retryMax → isServerFault (oracle k)) →
      retryLoop oracle retryMax base fuel attempt last sleeps
        = (ReqResult.returned rN,
            sleeps ++ (List.range (fuel - 1)).map (fun i => backoff base (attempt + i)))
  | 0, attempt, last, sleeps, hcount, _, hle, _ => by omega
  | fuel + 1, attempt, last, sleeps, hcount, hone, hle, hall => by
    have hcur := hall attempt le_rfl hle
    cases hor : oracle attempt with
    | exn => rw [hor] at hcur; exact absurd hcur id
    | resp r =>
      rw [hor] at hcur
      have h5 : 500 ≤ r.status ∧ r.status < 600 := hcur
      rw [retryLoop]
      have h429 : ¬ r.status = 429 := by omega
      simp only [hor]
      rw [if_neg h429, if_pos h5]
      by_cases hlast : retryMax ≤ attempt
      · have hatt : attempt = retryMax := le_antisymm hle hlast
        have hfuel : fuel = 0 := by omega
        have hr : r = rN := by
          rw [hatt] at hor
          rw [hor] at hN
          exact Outcome.resp.inj hN
        rw [if_pos hlast, hr, hfuel]
        simp
      · rw [if_neg hlast]
        have hrec := retryLoop_all_5xx oracle retryMax base rN hN fuel (attempt + 1)
          (some r) (sleeps ++ [backoff base attempt]) (by omega) (by omega) (by omega)
          (fun k hk1 hk2 => hall k (by omega) hk2)
        rw [hrec]
        obtain ⟨f, rfl⟩ : ∃ f, fuel = f + 1 := ⟨fuel - 1, by omega⟩
        simp only [Nat.add_sub_cancel]
        rw [backoff_range_shift base f attempt]
        simp

/-- C8: when every one of the `retryMax ≥ 1` attempts receives a server-fault
(5xx) response, the transport returns the last such response unmodified (a
non-throwing failed response), after sleeping `base * 2^(attempt-1)` seconds
on each attempt before the last. -/
theorem server_fault_exhaustion (oracle : Nat → Outcome) (retryMax : Nat) (base : ℚ)
    (rN : Response) (hmax : 1 ≤ retryMax)
    (hall : ∀ k, 1 ≤ k → k ≤ retryMax → isServerFault (oracle k))
    (hN : oracle retryMax = Outcome.resp rN) :
    req_with_retry oracle retryMax base
      = (ReqResult.returned rN,
          (List.range (retryMax - 1)).map (fun i => backoff base (1 + i))) := by
  have h := retryLoop_all_5xx oracle retryMax base rN hN retryMax 1 none []
    (by omega) le_rfl hmax hall
  simpa [req_with_retry] using h

/-- Witness for `server_fault_exhaustion`: six straight 503s with the default
tuning return the last 503 after backoffs 2, 4, 8, 16, 32 seconds. -/
theorem server_fault_exhaustion_witness :
    req_with_retry (fun _ => Outcome.resp ⟨503, none⟩) RETRY_MAX RETRY_BASE_WAIT
      = (ReqResult.returned ⟨503, none⟩, [2, 4, 8, 16, 32]) := by
  have h := server_fault_exhaustion (fun _ => Outcome.resp ⟨503, none⟩) RETRY_MAX
    RETRY_BASE_WAIT ⟨503, none⟩ (by norm_num [RETRY_MAX])
    (fun k _ _ => ⟨by norm_num, by norm_num⟩) rfl
  rw [h]
  norm_num [RETRY_MAX, RETRY_BASE_WAIT, backoff, List.range_succ]

theorem retryLoop_all_exn (oracle : Nat → Outcome) (retryMax : Nat) (base : ℚ) :
    ∀ fuel attempt last sleeps,
      attempt + fuel = retryMax + 1 → 1 ≤ attempt → attempt ≤ retryMax →
      (∀ k, attempt ≤ k → k ≤ retryMax → oracle k = Outcome.exn) →
      retryLoop oracle retryMax base fuel attempt last sleeps
        = (ReqResult.raised,
            sleeps ++ (List.range (fuel - 1)).map (fun i => backoff base (attempt + i)))
  | 0, attempt, last, sleeps, hcount, _, hle, _ => by omega
  | fuel + 1, attempt, last, sleeps, hcount, hone, hle, hall => by
    have hor := hall attempt le_rfl hle
    rw [retryLoop]
    simp only [hor]
    by_cases hlast : retryMax ≤ attempt
    · have hfuel : fuel = 0 := by omega
      rw [if_pos hlast, hfuel]
      simp
    · rw [if_neg hlast]
      have hrec := retryLoop_all_exn oracle retryMax base fuel (attempt + 1)
        last (sleeps ++ [backoff base attempt]) (by omega) (by omega) (by omega)
        (fun k hk1 hk2 => hall k (by omega) hk2)
      rw [hrec]
      obtain ⟨f, rfl⟩ : ∃ f, fuel = f + 1 := ⟨fuel - 1, by omega⟩
      simp only [Nat.add_sub_cancel]
      rw [backoff_range_shift base f attempt]
      simp

/-- C9: when every one of the `retryMax ≥ 1` attempts raises a
connection-level fault, the transport backs off between attempts and finally
re-raises — the caller gets an exception, unlike the 5xx exhaustion case. -/
theorem connection_fault_exhaustion (oracle : Nat → Outcome) (retryMax : Nat)
    (base : ℚ) (hmax : 1 ≤ retryMax)
    (hall : ∀ k, 1 ≤ k → k ≤ retryMax → oracle k = Outcome.exn) :
    req_with_retry oracle retryMax base
      = (ReqResult.raised,
          (List.range (retryMax - 1)).map (fun i => backoff base (1 + i))) := by
  have h := retryLoop_all_exn oracle retryMax base retryMax 1 none []
    (by omega) le_rfl hmax hall
  simpa [req_with_retry] using h

/-- Witness for `connection_fault_exhaustion`: six straight connection faults
with the default tuning raise after backoffs 2, 4, 8, 16, 32 seconds. -/
theorem connection_fault_exhaustion_witness :
    req_with_retry (fun _ => Outcome.exn) RETRY_MAX RETRY_BASE_WAIT
      = (ReqResult.raised, [2, 4, 8, 16, 32]) := by
  have h := connection_fault_exhaustion (fun _ => Outcome.exn) RETRY_MAX
    RETRY_BASE_WAIT (by norm_num [RETRY_MAX]) (fun k _ _ => rfl)
  rw [h]
  norm_num [RETRY_MAX, RETRY_BASE_WAIT, backoff, List.range_succ]

theorem retryLoop_all_429 (oracle : Nat → Outcome) (retryMax : Nat) (base : ℚ)
    (rN : Response) (hN : oracle retryMax = Outcome.resp rN) :
    ∀ f attempt last sleeps,
      attempt + f = retryMax → 1 ≤ attempt →
      (∀ k, attempt ≤ k → k ≤ retryMax → isRateLimited (oracle k)) →
      retryLoop oracle retryMax base (f + 1) attempt last sleeps
        = (ReqResult.returned rN,
            sleeps ++ (List.range (f + 1)).map
              (fun i => rateWait base (attempt + i) (oracle (attempt + i))))
  | 0, attempt, last, sleeps, hcount, hone, hall => by
    have hatt : attempt = retryMax := by omega
    have hcur := hall attempt le_rfl (by omega)
    cases hor : oracle attempt with
    | exn => rw [hor] at hcur; exact absurd hcur id
    | resp r =>
      rw [hor] at hcur
      have h429 : r.status = 429 := hcur
      rw [retryLoop]
      simp only [hor]
      rw [if_pos h429, retryLoop]
      have hr : r = rN := by
        rw [hatt] at hor
        rw [hor] at hN
        exact Outcome.resp.inj hN
      rw [rateWait_range_shift oracle base 0 attempt]
      simp [rateWait, hor, hr]
  | f + 1, attempt, last, sleeps, hcount, hone, hall => by
    have hcur := hall attempt le_rfl (by omega)
    cases hor : oracle attempt with
    | exn => rw [hor] at hcur; exact absurd hcur id
    | resp r =>
      rw [hor] at hcur
      have h429 : r.status = 429 := hcur
      rw [retryLoop]
      simp only [hor]
      rw [if_pos h429]
      have hrec := retryLoop_all_429 oracle retryMax base rN hN f (attempt + 1)
        (some r) (sleeps ++ [r.retryAfter.getD (backoff base attempt)]) (by omega)
        (by omega) (fun k hk1 hk2 => hall k (by omega) hk2)
      rw [hrec]
      rw [rateWait_range_shift oracle base (f + 1) attempt]
      simp [rateWait, hor]

/-- C10: when every one of the `retryMax ≥ 1` attempts receives a 429
response, the transport sleeps on every attempt — including a final wait
after the last one (the Retry-After hint when present, else the exponential
backoff) — and then returns that last 429 response instead of raising. -/
theorem rate_limit_exhaustion (oracle : Nat → Outcome) (retryMax : Nat) (base : ℚ)
    (rN : Response) (hmax : 1 ≤ retryMax)
    (hall : ∀ k, 1 ≤ k → k ≤ retryMax → isRateLimited (oracle k))
    (hN : oracle retryMax = Outcome.resp rN) :
    req_with_retry oracle retryMax base
      = (ReqResult.returned rN,
          (List.range retryMax).map (fun i => rateWait base (1 + i) (oracle (1 + i)))) := by
  obtain ⟨f, rfl⟩ : ∃ f, retryMax = f + 1 := ⟨retryMax - 1, by omega⟩
  have h := retryLoop_all_429 oracle (f + 1) base rN hN f 1 none []
    (by omega) le_rfl hall
  simpa [req_with_retry] using h

/-- Witness for `rate_limit_exhaustion`: six straight 429s (with a
Retry-After hint of 7s on attempt 3) sleep 2, 4, 7, 16, 32 and finally 64
seconds, then return the last 429 response. -/
theorem rate_limit_exhaustion_witness :
    req_with_retry (fun k => Outcome.resp ⟨429, if k = 3 then some 7 else none⟩)
        RETRY_MAX RETRY_BASE_WAIT
      = (ReqResult.returned ⟨429, none⟩, [2, 4, 7, 16, 32, 64]) := by
  have h := rate_limit_exhaustion
    (fun k => Outcome.resp ⟨429, if k = 3 then some 7 else none⟩)
    RETRY_MAX RETRY_BASE_WAIT ⟨429, none⟩ (by norm_num [RETRY_MAX])
    (fun k _ _ => rfl) (by norm_num [RETRY_MAX])
  rw [h]
  norm_num [RETRY_MAX, RETRY_BASE_WAIT, backoff, rateWait, List.range_succ]

end SpaceMigration
